import Mathlib

/-!
Verification development for the Infortrend manila NAS driver
(`infortrend/infortrend_nas.py`).  Python strings are modelled as `List Char`
(`Str`), Python dictionaries as association lists, and each appliance command
issued through `_execute` as a constructor of `NasCmd`.  Fallible Python code
(uncaught exceptions) is modelled with `Option`/`Except`/error constructors.
-/

abbrev Str := List Char

/-- Model of Python `str.lower()` restricted to ASCII, which is exact for the
protocol names (`NFS`, `CIFS`, ...) this driver compares. -/
def lowerChar (c : Char) : Char :=
  if 'A' ≤ c ∧ c ≤ 'Z' then Char.ofNat (c.toNat + 32) else c

/-- `s.lower()` on an ASCII string. -/
def lower (s : Str) : Str := s.map lowerChar

/-- Model of Python `s.split(sep)` for a one-character separator `sep`
(used by `_parse_location` for `'/'` and `'\\'`, by `_extract_pool_name`
for `'/'`, and by `_parser` for `'\n'`).  Keeps empty chunks, like Python. -/
def splitChar (sep : Char) : Str → List Str
  | [] => [[]]
  | c :: rest =>
    if c = sep then [] :: splitChar sep rest
    else
      match splitChar sep rest with
      | [] => [[c]]
      | chunk :: more => (c :: chunk) :: more

/-- Model of Python `s.split(sep)` for a two-character separator `a b`
(used by `_parse_location` for `":/"`).  Scans left to right,
non-overlapping, keeps empty chunks, like Python. -/
def splitSeq2 (a b : Char) : Str → List Str
  | [] => [[]]
  | [c] => [[c]]
  | c :: d :: rest =>
    if c = a ∧ d = b then
      [] :: splitSeq2 a b rest
    else
      match splitSeq2 a b (d :: rest) with
      | [] => [[c]]
      | chunk :: more => (c :: chunk) :: more

/-- `InfortrendNAS._export_location`: NFS locations are
`ip:/<pool_path>/<share_name>`, CIFS locations are `\\ip\share_name`;
any other protocol raises `InvalidInput` (modelled as `none`). -/
def export_location (nas_ip share_name share_proto pool_path : Str) :
    Option Str :=
  if lower share_proto = "nfs".data then
    some (nas_ip ++ (':' :: '/' :: pool_path) ++ ('/' :: share_name))
  else if lower share_proto = "cifs".data then
    some ('\\' :: '\\' :: nas_ip ++ ('\\' :: share_name))
  else
    none

/-- `InfortrendNAS._parse_location`: recovers `(ip, ift_share_name)` from an
export location.  For NFS the input is split on `":/"`; when that yields
exactly two chunks the ip is chunk 0 and the share name is component `[1]`
of chunk 1 split on `'/'` (an out-of-range index, i.e. a Python
`IndexError`, is modelled as `none`).  For CIFS the input is split on
`'\\'` and must yield exactly 4 chunks whose first two are empty.  The
final truthiness check `if not (ip and ift_share_name)` raises
`InfortrendNASException` when either piece is missing or empty (`none`). -/
def parse_location (input_location share_proto : Str) :
    Option (Str × Str) :=
  let ipName : Option (Str × Str) :=
    if lower share_proto = "nfs".data then
      let location := splitSeq2 ':' '/' input_location
      if location.length = 2 then
        match (splitChar '/' (location.getD 1 [])).get? 1 with
        | some nm => some (location.getD 0 [], nm)
        | none => none
      else none
    else if lower share_proto = "cifs".data then
      let location := splitChar '\\' input_location
      if location.length = 4 ∧ location.getD 0 ['?'] = [] ∧
          location.getD 1 ['?'] = [] then
        some (location.getD 2 [], location.getD 3 [])
      else none
    else none
  match ipName with
  | some (ip, nm) => if ip ≠ [] ∧ nm ≠ [] then some (ip, nm) else none
  | none => none

theorem splitChar_no_sep (sep : Char) (s : Str) (h : sep ∉ s) :
    splitChar sep s = [s] := by
  induction s with
  | nil => simp [splitChar]
  | cons c rest ih =>
    have hc : ¬ c = sep := fun e => h (e ▸ List.mem_cons_self c rest)
    have hr : sep ∉ rest := fun hm => h (List.mem_cons_of_mem _ hm)
    simp [splitChar, hc, ih hr]

theorem splitChar_append (sep : Char) (l r : Str) (h : sep ∉ l) :
    splitChar sep (l ++ sep :: r) = l :: splitChar sep r := by
  induction l with
  | nil => simp [splitChar]
  | cons c l2 ih =>
    have hc : ¬ c = sep := fun e => h (e ▸ List.mem_cons_self c l2)
    have hl : sep ∉ l2 := fun hm => h (List.mem_cons_of_mem _ hm)
    simp [splitChar, hc, ih hl]

theorem splitSeq2_no_sep (a b : Char) (s : Str) (h : a ∉ s) :
    splitSeq2 a b s = [s] := by
  induction s with
  | nil => simp [splitSeq2]
  | cons c rest ih =>
    have hc : ¬ c = a := fun e => h (e ▸ List.mem_cons_self c rest)
    have hr : a ∉ rest := fun hm => h (List.mem_cons_of_mem _ hm)
    cases rest with
    | nil => simp [splitSeq2]
    | cons d rest2 =>
      have : ¬ (c = a ∧ d = b) := fun e => hc e.1
      simp [splitSeq2, this, ih hr]

theorem splitSeq2_append (a b : Char) (l r : Str) (h : a ∉ l) :
    splitSeq2 a b (l ++ a :: b :: r) = l :: splitSeq2 a b r := by
  induction l with
  | nil => simp [splitSeq2]
  | cons c l2 ih =>
    have hc : ¬ c = a := fun e => h (e ▸ List.mem_cons_self c l2)
    have hl : a ∉ l2 := fun hm => h (List.mem_cons_of_mem _ hm)
    cases l2 with
    | nil =>
      have : ¬ (c = a ∧ a = b) := fun e => hc e.1
      simp [splitSeq2, this]
    | cons c2 l3 =>
      have hg : ¬ (c = a ∧ c2 = b) := fun e => hc e.1
      show splitSeq2 a b (c :: ((c2 :: l3) ++ a :: b :: r)) = _
      rw [List.cons_append]
      simp only [splitSeq2, if_neg hg]
      rw [← List.cons_append, ih hl]

/-- C1: the claimed round trip fails on the code for realistic pool paths:
with the appliance pool path `/LV-1/share-pool-01` (as reported by
`folder status` and stored by `_check_pools_setup`), the NFS location that
`_export_location` produces is parsed by `_parse_location` into share name
`LV-1` — the logical-volume segment — instead of the original share id. -/
theorem export_roundtrip_cex :
    export_location "172.27.112.223".data "sh-1".data "NFS".data
        "/LV-1/share-pool-01".data
      = some "172.27.112.223://LV-1/share-pool-01/sh-1".data ∧
    parse_location "172.27.112.223://LV-1/share-pool-01/sh-1".data "NFS".data
      = some ("172.27.112.223".data, "LV-1".data) ∧
    ("LV-1".data : Str) ≠ "sh-1".data := by decide

/-- C1 (amended): the export-location round trip recovers the configured ip
and the original share id exactly — for CIFS whenever ip and share name are
nonempty and backslash-free, and for NFS only under the extra condition
that the pool path is a single path component (no `'/'`), which fails for
the appliance's real `/<lv>/<pool>` paths (see the counterexample). -/
theorem export_location_roundtrip (ip pool name : Str)
    (hip : ip ≠ []) (hname : name ≠ []) :
    ((':' ∉ ip) → ('/' ∉ pool) → (':' ∉ pool) → ('/' ∉ name) → (':' ∉ name) →
      parse_location ((export_location ip name "NFS".data pool).getD [])
        "NFS".data = some (ip, name)) ∧
    (('\\' ∉ ip) → ('\\' ∉ name) →
      parse_location ((export_location ip name "CIFS".data pool).getD [])
        "CIFS".data = some (ip, name)) := by
  constructor
  · intro h1 h2 h3 h4 h5
    have hnfs : lower "NFS".data = "nfs".data := by decide
    have hexp : (export_location ip name "NFS".data pool).getD []
        = ip ++ ':' :: '/' :: (pool ++ '/' :: name) := by
      simp [export_location, hnfs]
    have htail : ':' ∉ pool ++ '/' :: name := by
      intro hm
      rcases List.mem_append.mp hm with hm | hm
      · exact h3 hm
      · rcases List.mem_cons.mp hm with hm | hm
        · exact absurd hm (by decide)
        · exact h5 hm
    have hsplit : splitSeq2 ':' '/' (ip ++ ':' :: '/' :: (pool ++ '/' :: name))
        = [ip, pool ++ '/' :: name] := by
      rw [splitSeq2_append _ _ _ _ h1, splitSeq2_no_sep _ _ _ htail]
    have hinner : splitChar '/' (pool ++ '/' :: name) = [pool, name] := by
      rw [splitChar_append _ _ _ h2, splitChar_no_sep _ _ h4]
    simp [parse_location, hnfs, hexp, hsplit, hinner, hip, hname]
  · intro h1 h2
    have hcifs : lower "CIFS".data = "cifs".data := by decide
    have hexp : (export_location ip name "CIFS".data pool).getD []
        = '\\' :: '\\' :: (ip ++ '\\' :: name) := by
      simp [export_location, hcifs]
    have hsplit : splitChar '\\' ('\\' :: '\\' :: (ip ++ '\\' :: name))
        = [[], [], ip, name] := by
      simp [splitChar]
      rw [splitChar_append _ _ _ h1, splitChar_no_sep _ _ h2]
    simp [parse_location, hcifs, hexp, hsplit, hip, hname]

/-- Witness for `export_location_roundtrip` at a concrete configuration. -/
theorem export_location_roundtrip_witness :
    (parse_location ((export_location "172.27.112.223".data "sh-1".data
        "NFS".data "pool-1".data).getD []) "NFS".data
      = some ("172.27.112.223".data, "sh-1".data)) ∧
    (parse_location ((export_location "172.27.112.223".data "sh-1".data
        "CIFS".data "pool-1".data).getD []) "CIFS".data
      = some ("172.27.112.223".data, "sh-1".data)) := by
  have h := export_location_roundtrip "172.27.112.223".data "pool-1".data
    "sh-1".data (by decide) (by decide)
  exact ⟨h.1 (by decide) (by decide) (by decide) (by decide) (by decide),
    h.2 (by decide) (by decide)⟩

example :
    export_location "172.27.112.223".data "sh-1".data "NFS".data
      "/LV-1/share-pool-01".data
    = some "172.27.112.223://LV-1/share-pool-01/sh-1".data := by decide

example :
    parse_location "172.27.112.223://LV-1/share-pool-01/sh-1".data "NFS".data
    = some ("172.27.112.223".data, "LV-1".data) := by decide

example :
    parse_location "172.27.112.223:/share-pool-01/sh-1".data "NFS".data
    = some ("172.27.112.223".data, "sh-1".data) := by decide

example :
    export_location "172.27.112.223".data "sh-1".data "CIFS".data
      "/LV-1/share-pool-01".data
    = some "\\\\172.27.112.223\\sh-1".data := by decide

example :
    parse_location "\\\\172.27.112.223\\sh-1".data "CIFS".data
    = some ("172.27.112.223".data, "sh-1".data) := by decide

/-! ## Retrying executor (`retry_cli` decorator and `_execute`) -/

/-- One run of the `while retry_time < total_retry_time` loop of `retry_cli`,
already known to execute at least one iteration.  `f i` is the outcome
`(rc, out)` of the transport call on attempt `i` (0-based); `t` is the
current attempt index and the argument is the number of loop iterations
still allowed minus one.  Returns the final `(rc, out)` pair together with
the number of transport calls performed. -/
def retryGo {α : Type} (f : Nat → Int × α) (t : Nat) : Nat → (Int × α) × Nat
  | 0 => (f t, 1)
  | n + 1 =>
    let r := f t
    if r.1 = 0 then (r, 1)
    else
      let p := retryGo f (t + 1) n
      (p.1, p.2 + 1)

/-- `retry_cli`: `total_retry_time` is the configured `cli_retry_time`,
defaulted to `DEFAULT_RETRY_TIME = 5` only when it is `None`.  When
`total_retry_time <= 0` the loop body never runs and the final
`return rc, out` hits unbound local variables: modelled as `(none, 0)` —
no result and zero transport calls.  Otherwise returns the last observed
`(rc, out)` and the number of calls. -/
def retry_cli {α : Type} (f : Nat → Int × α) (cli_retry_time : Option Int) :
    Option (Int × α) × Nat :=
  let total_retry_time := cli_retry_time.getD 5
  if total_retry_time ≤ 0 then (none, 0)
  else
    let p := retryGo f 0 (total_retry_time.toNat - 1)
    (some p.1, p.2)

/-- Outcome of `InfortrendNAS._execute` (the command layer above
`_ssh_execute`). `unboundOut` models the source's failing branch: the
`raise exception.InfortrendNASException(err=msg, rc=rc, out=out)` statement
references `out`, a name never bound in `_execute` (the call binds
`rc, result`), so Python raises `NameError` instead of the intended
exception.  `unboundLoopVars` models the `retry_cli` loop running zero
iterations. -/
inductive ExecOutcome (α : Type) where
  | ok (result : α)
  | unboundOut
  | unboundLoopVars
  deriving DecidableEq

/-- `InfortrendNAS._execute` composed with the `retry_cli`-wrapped
`_ssh_execute`, with the transport modelled by `f`.  Also returns the
number of transport calls performed. -/
def execute_cmd {α : Type} (f : Nat → Int × α) (cli_retry_time : Option Int) :
    ExecOutcome α × Nat :=
  match retry_cli f cli_retry_time with
  | (none, n) => (.unboundLoopVars, n)
  | (some r, n) => if r.1 = 0 then (.ok r.2, n) else (.unboundOut, n)

theorem retryGo_succ_here {α : Type} (f : Nat → Int × α) (t n : Nat)
    (h : (f t).1 = 0) : retryGo f t n = (f t, 1) := by
  cases n <;> simp [retryGo, h]

theorem retryGo_all_fail {α : Type} (f : Nat → Int × α) :
    ∀ n t, (∀ i, i ≤ n → (f (t + i)).1 ≠ 0) →
    retryGo f t n = (f (t + n), n + 1) := by
  intro n
  induction n with
  | zero => intro t h; simp [retryGo]
  | succ m ih =>
    intro t h
    have h0 : (f t).1 ≠ 0 := by simpa using h 0 (Nat.zero_le _)
    have hr := ih (t + 1) (fun i hi => by
      have := h (i + 1) (Nat.succ_le_succ hi)
      have e : t + (i + 1) = t + 1 + i := by omega
      rw [e] at this
      exact this)
    have e : t + 1 + m = t + (m + 1) := by omega
    rw [e] at hr
    simp [retryGo, h0, hr]

theorem retryGo_succ_at {α : Type} (f : Nat → Int × α) :
    ∀ j n t, j ≤ n → (∀ i, i < j → (f (t + i)).1 ≠ 0) → (f (t + j)).1 = 0 →
    retryGo f t n = (f (t + j), j + 1) := by
  intro j
  induction j with
  | zero =>
    intro n t _ _ h0
    simpa using retryGo_succ_here f t n (by simpa using h0)
  | succ m ih =>
    intro n t hjn hfail h0
    obtain ⟨n2, rfl⟩ : ∃ n2, n = n2 + 1 := ⟨n - 1, by omega⟩
    have hft : (f t).1 ≠ 0 := by simpa using hfail 0 (Nat.succ_pos _)
    have hr := ih n2 (t + 1) (by omega)
      (fun i hi => by
        have := hfail (i + 1) (by omega)
        have e : t + (i + 1) = t + 1 + i := by omega
        rw [e] at this
        exact this)
      (by
        have e : t + 1 + m = t + (m + 1) := by omega
        rw [e]
        exact h0)
    have e : t + 1 + m = t + (m + 1) := by omega
    rw [e] at hr
    simp [retryGo, hft, hr]

/-- C2: success half of the claim holds — if the transport returns nonzero
on the first `k-1` attempts and zero on attempt `k` (1-based, `k ≤ total`),
`retry_cli` performs exactly `k` calls and `_execute` returns attempt `k`'s
payload.  Failure half diverges from the claim: when every attempt up to
`total` fails, exactly `total` calls are made but `_execute` ends in the
`NameError` on the unbound `out` in its raise statement (`unboundOut`), not
in an `InfortrendNASException` carrying the code and payload. -/
theorem retry_execute_behavior {α : Type} (f : Nat → Int × α) (total k : Nat)
    (hk1 : 1 ≤ k) (hk2 : k ≤ total) :
    ((∀ i, i < k - 1 → (f i).1 ≠ 0) → (f (k - 1)).1 = 0 →
      retry_cli f (some (total : Int)) = (some (f (k - 1)), k) ∧
      execute_cmd f (some (total : Int)) = (.ok (f (k - 1)).2, k)) ∧
    ((∀ i, i < total → (f i).1 ≠ 0) →
      retry_cli f (some (total : Int)) = (some (f (total - 1)), total) ∧
      execute_cmd f (some (total : Int)) = (.unboundOut, total)) := by
  have htot : ¬ ((total : Int) ≤ 0) := by
    simp only [not_le]
    exact_mod_cast Nat.lt_of_lt_of_le Nat.zero_lt_one (Nat.le_trans hk1 hk2)
  have htn : (total : Int).toNat = total := Int.toNat_natCast total
  constructor
  · intro hfail h0
    have hgo : retryGo f 0 (total - 1) = (f (k - 1), k) := by
      have := retryGo_succ_at f (k - 1) (total - 1) 0 (by omega)
        (fun i hi => by simpa using hfail i hi) (by simpa using h0)
      simpa [Nat.sub_add_cancel hk1] using this
    constructor
    · simp [retry_cli, htot, htn, hgo]
    · simp [execute_cmd, retry_cli, htot, htn, hgo, h0]
  · intro hfail
    have hgo : retryGo f 0 (total - 1) = (f (total - 1), total) := by
      have := retryGo_all_fail f (total - 1) 0
        (fun i hi => by
          have : i < total := by omega
          simpa using hfail i this)
      simpa [Nat.sub_add_cancel (Nat.le_trans hk1 hk2)] using this
    have hne : (f (total - 1)).1 ≠ 0 := hfail (total - 1) (by omega)
    constructor
    · simp [retry_cli, htot, htn, hgo]
    · simp [execute_cmd, retry_cli, htot, htn, hgo, hne]

/-- Witness for `retry_execute_behavior`: success on attempt 2 of 3 with
exactly 2 calls, and the unbound-`out` failure after exactly 2 of 2
all-failing attempts. -/
theorem retry_execute_behavior_witness :
    (retry_cli (fun i => ((if i = 0 then 1 else 0 : Int), i))
        (some ((3 : Nat) : Int)) = (some (0, 1), 2) ∧
      execute_cmd (fun i => ((if i = 0 then 1 else 0 : Int), i))
        (some ((3 : Nat) : Int)) = (.ok 1, 2)) ∧
    execute_cmd (fun i => ((1 : Int), i)) (some ((2 : Nat) : Int))
      = (.unboundOut, 2) := by
  refine ⟨?_, ?_⟩
  · have h := (retry_execute_behavior (fun i => ((if i = 0 then 1 else 0 : Int), i))
      3 2 (by decide) (by decide)).1 (by decide) (by decide)
    simpa using h
  · have h := (retry_execute_behavior (fun i => ((1 : Int), i))
      2 1 (by decide) (by decide)).2 (fun i _ => by simp)
    exact h.2

/-- C9 counterexample: with a configured retry count of 0 the retry loop
performs zero transport calls and yields no `(rc, out)` pair at all (the
`return rc, out` references never-bound locals), so the executor does not
"still perform at least one transport attempt". -/
theorem retry_zero_attempts_cex :
    retry_cli (fun _ => ((1 : Int), 0)) (some 0) = (none, 0) ∧
    ¬ 1 ≤ (retry_cli (fun _ => ((1 : Int), 0)) (some 0)).2 := by decide

/-- C9 (amended): a configured retry count below 1 is not treated as 1:
only a `None` (unset) count is defaulted (to 5); for any configured value
`<= 0` the loop body never runs, zero transport calls are made, and the
command layer fails on the unbound loop variables. -/
theorem retry_nonpositive_no_attempt {α : Type} (f : Nat → Int × α)
    (t : Int) (h : t ≤ 0) :
    retry_cli f (some t) = (none, 0) ∧
    execute_cmd f (some t) = (.unboundLoopVars, 0) := by
  constructor
  · simp [retry_cli, h]
  · simp [execute_cmd, retry_cli, h]

/-- Witness for `retry_nonpositive_no_attempt` at a configured value of -2. -/
theorem retry_nonpositive_no_attempt_witness :
    retry_cli (fun i => ((1 : Int), i)) (some (-2)) = (none, 0) ∧
    execute_cmd (fun i => ((1 : Int), i)) (some (-2))
      = (.unboundLoopVars, 0) :=
  retry_nonpositive_no_attempt (fun i => ((1 : Int), i)) (-2) (by decide)

/-! ## Reply parser (`_parser`) -/

/-- Double-quote character. -/
def dqChar : Char := Char.ofNat 34
/-- Single-quote character. -/
def sqChar : Char := Char.ofNat 39
/-- Opening curly-bracket character. -/
def obChar : Char := Char.ofNat 123
/-- Closing curly-bracket character. -/
def cbChar : Char := Char.ofNat 125

/-- Whitespace for Python `str.strip()`. -/
def isPySpace (c : Char) : Bool :=
  c = ' ' || c = '\n' || c = '\t' || c = '\r' ||
    c = Char.ofNat 11 || c = Char.ofNat 12

/-- Python `s.strip()`. -/
def pyStrip (s : Str) : Str :=
  ((s.dropWhile isPySpace).reverse.dropWhile isPySpace).reverse

/-- JSON inter-token whitespace. -/
def skipWs (s : Str) : Str :=
  s.dropWhile (fun c => c = ' ' || c = '\n' || c = '\t' || c = '\r')

/-- JSON values as decoded by `json.loads` from the appliance reply body. -/
inductive Json where
  | str (s : Str)
  | bool (b : Bool)
  | num (n : Int)
  | null
  | arr (elems : List Json)
  | obj (fields : List (Str × Json))

/-- Scan a JSON string body up to the closing double quote.  The appliance
wire format never contains quote or backslash characters inside strings
(the driver's own quote-normalisation step already relies on that), so no
escape handling is modelled. -/
def scanStr : Str → Option (Str × Str)
  | [] => none
  | c :: rest =>
    if c = dqChar then some ([], rest)
    else
      match scanStr rest with
      | some (s, rem) => some (c :: s, rem)
      | none => none

/-- Consume an exact literal, returning the remainder. -/
def dropLit : Str → Str → Option Str
  | [], s => some s
  | _ :: _, [] => none
  | c :: p, d :: s => if c = d then dropLit p s else none

/-- Consume leading decimal digits. -/
def digitsToNat : Str → Nat → Nat × Str
  | [], acc => (acc, [])
  | c :: rest, acc =>
    if c.isDigit then digitsToNat rest (acc * 10 + (c.toNat - 48))
    else (acc, c :: rest)

/-- Parse a JSON integer (optional minus sign, decimal digits). -/
def parseNum (s : Str) : Option (Int × Str) :=
  match s with
  | '-' :: c :: rest =>
    if c.isDigit then
      let p := digitsToNat (c :: rest) 0
      some (-(p.1 : Int), p.2)
    else none
  | c :: rest =>
    if c.isDigit then
      let p := digitsToNat (c :: rest) 0
      some ((p.1 : Int), p.2)
    else none
  | [] => none

/-- Recursive-descent model of `json.loads` on the appliance reply subset
(strings without escapes, booleans, null, integers, arrays, objects with
string keys).  `fuel` bounds the recursion depth; the tail of an array or
object is parsed by re-entering the function on the remainder prefixed
with the opening bracket again. -/
def jsonVal : Nat → Str → Option (Json × Str)
  | 0, _ => none
  | fuel + 1, s =>
    match skipWs s with
    | [] => none
    | c :: rest =>
      if c = dqChar then
        match scanStr rest with
        | some (s1, rem) => some (.str s1, rem)
        | none => none
      else if c = obChar then
        match skipWs rest with
        | [] => none
        | c2 :: rest2 =>
          if c2 = cbChar then some (.obj [], rest2)
          else if c2 = dqChar then
            match scanStr rest2 with
            | none => none
            | some (key, rem2) =>
              match skipWs rem2 with
              | ':' :: rem3 =>
                match jsonVal fuel rem3 with
                | none => none
                | some (v, rem4) =>
                  match skipWs rem4 with
                  | ',' :: rem5 =>
                    match jsonVal fuel (obChar :: rem5) with
                    | some (.obj fs, rem6) => some (.obj ((key, v) :: fs), rem6)
                    | _ => none
                  | c3 :: rem5 =>
                    if c3 = cbChar then some (.obj [(key, v)], rem5) else none
                  | [] => none
              | _ => none
          else none
      else if c = '[' then
        match skipWs rest with
        | [] => none
        | c2 :: rest2 =>
          if c2 = ']' then some (.arr [], rest2)
          else
            match jsonVal fuel (c2 :: rest2) with
            | none => none
            | some (v, rem2) =>
              match skipWs rem2 with
              | ',' :: rem3 =>
                match jsonVal fuel ('[' :: rem3) with
                | some (.arr vs, rem4) => some (.arr (v :: vs), rem4)
                | _ => none
              | ']' :: rem3 => some (.arr [v], rem3)
              | _ => none
      else
        match dropLit "true".data (c :: rest) with
        | some rem => some (.bool true, rem)
        | none =>
          match dropLit "false".data (c :: rest) with
          | some rem => some (.bool false, rem)
          | none =>
            match dropLit "null".data (c :: rest) with
            | some rem => some (.null, rem)
            | none =>
              match parseNum (c :: rest) with
              | some (n, rem) => some (.num n, rem)
              | none => none

/-- Association-list lookup modelling Python dict subscripting for the
appliance replies (whose objects carry no duplicate keys). -/
def alookup {β : Type} : List (Str × β) → Str → Option β
  | [], _ => none
  | (k, v) :: rest, key => if k = key then some v else alookup rest key

/-- `d[key]` on a decoded JSON object (`none` = `KeyError`/`TypeError`). -/
def objGet (j : Json) (key : Str) : Option Json :=
  match j with
  | .obj fs => alookup fs key
  | _ => none

/-- `l[i]` on a decoded JSON array (`none` = `IndexError`/`TypeError`). -/
def arrGet (j : Json) (i : Nat) : Option Json :=
  match j with
  | .arr xs => xs.get? i
  | _ => none

/-- Coerce a decoded JSON value to a string (`none` = `TypeError`). -/
def asStr (j : Json) : Option Str :=
  match j with
  | .str s => some s
  | _ => none

/-- Hexadecimal digit value. -/
def hexDigitVal (c : Char) : Option Nat :=
  if '0' ≤ c ∧ c ≤ '9' then some (c.toNat - 48)
  else if 'a' ≤ c ∧ c ≤ 'f' then some (c.toNat - 87)
  else if 'A' ≤ c ∧ c ≤ 'F' then some (c.toNat - 55)
  else none

/-- Accumulate hexadecimal digits. -/
def hexDigitsToNat : Str → Nat → Option Nat
  | [], acc => some acc
  | c :: rest, acc =>
    match hexDigitVal c with
    | some d => hexDigitsToNat rest (acc * 16 + d)
    | none => none

/-- Python `int(s, 16)`: optional surrounding whitespace, optional sign,
optional `0x`/`0X` prefix, then hex digits (`none` = `ValueError`). -/
def pyIntHex (s : Str) : Option Int :=
  let s1 := pyStrip s
  let sgn : Bool × Str :=
    match s1 with
    | '-' :: rest => (true, rest)
    | '+' :: rest => (false, rest)
    | _ => (false, s1)
  let body : Str :=
    match sgn.2 with
    | '0' :: c :: rest => if c = 'x' ∨ c = 'X' then rest else '0' :: c :: rest
    | other => other
  match body with
  | [] => none
  | _ =>
    match hexDigitsToNat body 0 with
    | some n => some (if sgn.1 then -(n : Int) else (n : Int))
    | none => none

/-- The `result` half of `_parser`'s return value. -/
inductive ReplyPayload where
  | data (j : Json)   -- `rc == 0`: `content_dict['data'][0]`
  | cliMsg (s : Str)  -- `rc != 0`: `content_dict['cliCode'][0]['CLI']`
  | pyNone            -- empty body line: `rc, result = -1, None`

/-- Recursion-depth budget for decoding one reply body. -/
def jsonFuel : Nat := 64

/-- `InfortrendNAS._parser`: strip `'\r'`, strip outer whitespace, split on
newlines, take line index 2, replace single quotes by double quotes,
decode as JSON, then `rc = int(cliCode[0]['Return'], 16)` and payload
`data[0]` on success or `cliCode[0]['CLI']` on failure.  `none` models the
uncaught exceptions (`IndexError`, decode failure, key/type errors). -/
def parser_impl (content : Str) : Option (Int × ReplyPayload) :=
  let c1 := content.filter (fun c => c ≠ '\r')
  let c2 := pyStrip c1
  let lines := splitChar '\n' c2
  match lines.get? 2 with
  | none => none
  | some line2 =>
    let json_string := line2.map (fun c => if c = sqChar then dqChar else c)
    if json_string = [] then some (-1, .pyNone)
    else
      match jsonVal jsonFuel json_string with
      | none => none
      | some (content_dict, remText) =>
        if pyStrip remText ≠ [] then none
        else
          match (objGet content_dict "cliCode".data).bind (fun j => arrGet j 0) with
          | none => none
          | some cli0 =>
            match ((objGet cli0 "Return".data).bind asStr).bind pyIntHex with
            | none => none
            | some rc =>
              if rc = 0 then
                match (objGet content_dict "data".data).bind (fun j => arrGet j 0) with
                | none => none
                | some d0 => some (rc, .data d0)
              else
                match (objGet cli0 "CLI".data).bind asStr with
                | none => none
                | some msg => some (rc, .cliMsg msg)

/-- The literal service-status reply named by the claim (single-quoted
body, `enabled: true`), as raw text from the appliance. -/
def serviceStatusRaw : Str :=
  ("(64175, 1234, 272, 0)\n\n\x7b\x27cliCode\x27: [\x7b\x27Return\x27: "
    ++ "\x270x0000\x27, \x27CLI\x27: \x27Successful\x27\x7d], "
    ++ "\x27returnCode\x27: [], \x27data\x27: [\x7b\x27A\x27: "
    ++ "\x7b\x27NFS\x27: \x7b\x27enabled\x27: true\x7d\x7d\x7d]\x7d\n\n").data

/-- The single dictionary that is `data[0]` in that reply. -/
def serviceStatusDict : Json :=
  Json.obj [("A".data,
    Json.obj [("NFS".data, Json.obj [("enabled".data, Json.bool true)])])]

/-- C3: on the literal service-status reply, `_parser` yields
`returnCode == 0`, but the payload it returns is `data[0]` — the single
dictionary — and not the whole one-element `data` list
`[{'A': {'NFS': {'enabled': True}}}]` that the claim and the driver's own
unit test (`test_parser_with_service_status`, which asserts the full list
for this very input) expect. -/
theorem parser_service_status_eval :
    parser_impl serviceStatusRaw = some (0, .data serviceStatusDict) ∧
    ReplyPayload.data serviceStatusDict
      ≠ ReplyPayload.data (Json.arr [serviceStatusDict]) := by
  constructor
  · rfl
  · intro h
    injection h with h2
    simp [serviceStatusDict] at h2

/-! ## Appliance commands and share operations -/

/-- One appliance command line issued through `_execute`. -/
inductive NasCmd where
  | pagelistFolder (path : Str)
  | folderDelete (poolId poolName name : Str)
  | folderRename (poolId poolName oldName newName : Str)
  | fquotaStatus (poolId poolName name : Str)
  | shareProtoOn (sharePath proto : Str)
  | nfsRevoke (sharePath host : Str)
  | aclDeny (sharePath user : Str)
  deriving DecidableEq

/-- `InfortrendNAS._check_proto_enabled`: looks up `share_status[share_proto]`
in the share-status dictionary (`none` = `KeyError`) and then returns
`False` when the flag is truthy and `True` when it is falsy — i.e. the
boolean it returns is the NEGATION of the reported enabled state. -/
def check_proto_enabled (share_status : List (Str × Bool))
    (share_proto : Str) : Option Bool :=
  match alookup share_status share_proto with
  | none => none
  | some check_enabled => some (if check_enabled then false else true)

/-- `InfortrendNAS._ensure_protocol_on`: issues
`share <share_path> <share_proto> on` iff `_check_proto_enabled` returned a
falsy value.  Returns the commands issued (`none` = propagated `KeyError`). -/
def ensure_protocol_on (share_status : List (Str × Bool))
    (share_path share_proto : Str) : Option (List NasCmd) :=
  match check_proto_enabled share_status share_proto with
  | none => none
  | some b =>
    some (if b then [] else [.shareProtoOn share_path share_proto])

/-- C4: the toggle is inverted in the code.  When the share status reports
the protocol with flag `enabled`, `_ensure_protocol_on` sends the enable
command exactly when the protocol is ALREADY enabled, and sends nothing
when it is disabled — the opposite of the claim's idempotent toggle
(`_check_proto_enabled` returns `False` on a truthy status flag). -/
theorem ensure_protocol_on_inverted (share_status : List (Str × Bool))
    (share_path share_proto : Str) (enabled : Bool)
    (h : alookup share_status share_proto = some enabled) :
    ensure_protocol_on share_status share_path share_proto
      = some (if enabled then [.shareProtoOn share_path share_proto]
              else []) := by
  cases enabled <;>
    simp [ensure_protocol_on, check_proto_enabled, h]

/-- Witness for `ensure_protocol_on_inverted`: NFS reported enabled, yet the
enable command is issued. -/
theorem ensure_protocol_on_inverted_witness :
    ensure_protocol_on [("nfs".data, true)]
        "/LV-1/share-pool-01/sh-1".data "nfs".data
      = some [.shareProtoOn "/LV-1/share-pool-01/sh-1".data "nfs".data] := by
  have h := ensure_protocol_on_inverted [("nfs".data, true)]
    "/LV-1/share-pool-01/sh-1".data "nfs".data true (by decide)
  simpa using h

/-- `InfortrendNAS._check_access_legal`: returns `false` when the code
raises `InvalidShareAccess` (CIFS with a non-user rule, NFS with a non-ip
rule, or a protocol that is neither), `true` otherwise. -/
def check_access_legal (share_proto access_type : Str) : Bool :=
  if lower share_proto = "cifs".data ∧ access_type ≠ "user".data then false
  else if lower share_proto = "nfs".data ∧ access_type ≠ "ip".data then false
  else if lower share_proto ≠ "nfs".data ∧ lower share_proto ≠ "cifs".data then
    false
  else true

/-- Result of `deny_access`: commands issued, and whether
`InvalidShareAccess` was raised (in which case no command was issued). -/
structure AccessOutcome where
  commands : List NasCmd
  invalidAccess : Bool
  deriving DecidableEq

/-- `InfortrendNAS.deny_access`: validates via `_check_access_legal` first,
then issues the protocol-appropriate revoke command. -/
def deny_access (pool_path share_id share_proto access_type access_to : Str) :
    AccessOutcome :=
  let share_path := pool_path ++ ('/' :: share_id)
  if check_access_legal share_proto access_type = false then ⟨[], true⟩
  else if lower share_proto = "nfs".data then
    ⟨[.nfsRevoke share_path access_to], false⟩
  else if lower share_proto = "cifs".data then
    ⟨[.aclDeny share_path access_to], false⟩
  else ⟨[], false⟩

/-- C10: `deny_access` performs the same `_check_access_legal` validation as
`allow_access` before issuing anything: for a CIFS share with a non-`user`
rule, an NFS share with a non-`ip` rule, or any other protocol, it raises
`InvalidShareAccess` and sends no command to the appliance. -/
theorem deny_access_validates
    (pool_path share_id share_proto access_type access_to : Str)
    (h : (lower share_proto = "cifs".data ∧ access_type ≠ "user".data)
       ∨ (lower share_proto = "nfs".data ∧ access_type ≠ "ip".data)
       ∨ (lower share_proto ≠ "nfs".data ∧ lower share_proto ≠ "cifs".data)) :
    deny_access pool_path share_id share_proto access_type access_to
      = ⟨[], true⟩ := by
  have hlegal : check_access_legal share_proto access_type = false := by
    unfold check_access_legal
    rcases h with ⟨h1, h2⟩ | ⟨h1, h2⟩ | ⟨h1, h2⟩
    · simp [h1, h2]
    · have hne : ("nfs".data : Str) ≠ "cifs".data := by decide
      simp [h1, h2, hne]
    · simp [h1, h2]
  simp [deny_access, hlegal]

/-- Witness for `deny_access_validates`: an ip rule on a CIFS share. -/
theorem deny_access_validates_witness :
    deny_access "/LV-1/share-pool-01".data "sh-1".data "CIFS".data
      "ip".data "172.27.1.1".data = ⟨[], true⟩ :=
  deny_access_validates "/LV-1/share-pool-01".data "sh-1".data "CIFS".data
    "ip".data "172.27.1.1".data (Or.inl ⟨by decide, by decide⟩)

/-- `InfortrendNAS._check_share_exist`: scans the `pagelist folder` reply
for a subfolder whose `name` equals the share name. -/
def check_share_exist (subfolder_names : List Str) (share_name : Str) :
    Bool :=
  subfolder_names.any (fun n => n = share_name)

/-- Result of `delete_share`: the commands issued and the appliance
subfolder listing afterwards (folder-delete removes the named folder). -/
structure DeleteOutcome where
  commands : List NasCmd
  subfoldersAfter : List Str
  deriving DecidableEq

/-- `InfortrendNAS.delete_share`: always queries the pool's directory
listing; issues `folder options ... -d <id>` only when the share is
present, otherwise just logs a warning and completes. -/
def delete_share (pool_id pool_name pool_path : Str)
    (subfolder_names : List Str) (share_id : Str) : DeleteOutcome :=
  if check_share_exist subfolder_names share_id then
    ⟨[.pagelistFolder pool_path, .folderDelete pool_id pool_name share_id],
      subfolder_names.filter (fun n => n ≠ share_id)⟩
  else
    ⟨[.pagelistFolder pool_path], subfolder_names⟩

theorem check_filter_false (names : List Str) (x : Str) :
    check_share_exist (names.filter (fun n => n ≠ x)) x = false := by
  simp only [check_share_exist, List.any_eq_false]
  intro n hn
  have h2 := (List.mem_filter.mp hn).2
  simpa using h2

/-- C6: delete is idempotent.  When the share is absent from the pool's
directory listing, `delete_share` issues only the listing command (no
folder-delete) and completes; consequently a second delete of the same
share id never issues a folder-delete and never fails merely because the
share is already gone. -/
theorem delete_share_idempotent (pool_id pool_name pool_path share_id : Str) :
    (∀ names, check_share_exist names share_id = false →
      delete_share pool_id pool_name pool_path names share_id
        = ⟨[.pagelistFolder pool_path], names⟩) ∧
    (∀ names,
      (delete_share pool_id pool_name pool_path
        (delete_share pool_id pool_name pool_path names
          share_id).subfoldersAfter share_id).commands
        = [.pagelistFolder pool_path]) := by
  constructor
  · intro names h
    simp [delete_share, h]
  · intro names
    cases hce : check_share_exist names share_id with
    | false => simp [delete_share, hce]
    | true =>
      have hcf : check_share_exist
          (names.filter (fun n => n ≠ share_id)) share_id = false :=
        check_filter_false names share_id
      simp only [ne_eq, decide_not] at hcf
      simp [delete_share, hce, hcf]

/-- Witness for `delete_share_idempotent`: an absent share, and a
delete-then-delete sequence. -/
theorem delete_share_idempotent_witness :
    delete_share "ID1".data "pool-1".data "/LV-1/pool-1".data
        ["other".data] "sh-1".data
      = ⟨[.pagelistFolder "/LV-1/pool-1".data], ["other".data]⟩ ∧
    (delete_share "ID1".data "pool-1".data "/LV-1/pool-1".data
      (delete_share "ID1".data "pool-1".data "/LV-1/pool-1".data
        ["sh-1".data, "other".data] "sh-1".data).subfoldersAfter
      "sh-1".data).commands = [.pagelistFolder "/LV-1/pool-1".data] := by
  refine ⟨?_, ?_⟩
  · exact (delete_share_idempotent "ID1".data "pool-1".data
      "/LV-1/pool-1".data "sh-1".data).1 ["other".data] (by decide)
  · exact (delete_share_idempotent "ID1".data "pool-1".data
      "/LV-1/pool-1".data "sh-1".data).2 ["sh-1".data, "other".data]

/-! ## Byte-to-gigabyte conversion and pool stats -/

/-- `oslo_utils.units.Gi` = 2^30. -/
def unitsGi : ℚ := 1073741824

/-- `bi_to_gi(bi_size) = bi_size / units.Gi`.  The call sites feed Python
floats that are exact for the byte counts involved (well below 2^53), so
the model uses exact rationals. -/
def bi_to_gi (bi_size : ℚ) : ℚ := bi_size / unitsGi

/-- Round-half-to-even integer rounding, as Python's builtin `round`. -/
def rndHalfEven (q : ℚ) : Int :=
  if q - (⌊q⌋ : ℚ) < 1 / 2 then ⌊q⌋
  else if 1 / 2 < q - (⌊q⌋ : ℚ) then ⌊q⌋ + 1
  else if ⌊q⌋ % 2 = 0 then ⌊q⌋ else ⌊q⌋ + 1

/-- Python `round(x, 2)`. -/
def pyround2 (q : ℚ) : ℚ := ((rndHalfEven (q * 100) : ℚ)) / 100

/-- One entry of the `folder status` reply used by `update_pools_stats`. -/
structure FolderStat where
  directory : Str
  size : ℚ
  free : ℚ

/-- `InfortrendNAS._extract_pool_name`: `directory.split('/')[2]`
(`none` = `IndexError`). -/
def extract_pool_name (directory : Str) : Option Str :=
  (splitChar '/' directory).get? 2

/-- `InfortrendNAS.update_pools_stats`: for every reported folder whose
extracted pool name is configured, emit
`(pool_name, round(bi_to_gi(size), 2), round(bi_to_gi(free), 2))`.
`none` models an uncaught `IndexError` while extracting a pool name. -/
def update_pools_stats (pool_names : List Str) :
    List FolderStat → Option (List (Str × ℚ × ℚ))
  | [] => some []
  | fi :: rest =>
    match extract_pool_name fi.directory with
    | none => none
    | some pn =>
      match update_pools_stats pool_names rest with
      | none => none
      | some pools =>
        if pn ∈ pool_names then
          some ((pn, pyround2 (bi_to_gi fi.size),
            pyround2 (bi_to_gi fi.free)) :: pools)
        else some pools

/-- C7 counterexample: 321965260800 bytes is exactly 299.853515625 binary
gigabytes, so dividing by 2^30 and rounding to 2 decimal places yields
299.85 — not the 299.93 stated by the claim. -/
theorem rndHalfEven_of_lt (q : ℚ) (f : Int) (hf : ⌊q⌋ = f)
    (hr : q - (f : ℚ) < 1 / 2) : rndHalfEven q = f := by
  simp only [rndHalfEven, hf]
  exact if_pos hr

theorem pyround2_b321965260800 :
    pyround2 (bi_to_gi 321965260800) = 29985 / 100 := by
  have h : rndHalfEven ((321965260800 : ℚ) / 1073741824 * 100) = 29985 :=
    rndHalfEven_of_lt _ _ (by norm_num) (by norm_num)
  simp only [pyround2, bi_to_gi, unitsGi]
  rw [h]
  norm_num

theorem bi_to_gi_round_cex :
    pyround2 (bi_to_gi 321965260800) = 29985 / 100 ∧
    pyround2 (bi_to_gi 321965260800) ≠ 29993 / 100 := by
  refine ⟨pyround2_b321965260800, ?_⟩
  rw [pyround2_b321965260800]
  norm_num

/-- C7 (amended): the stats refresh converts byte sizes to gigabytes by
dividing by 2^30 and rounding to 2 decimal places; the reported byte size
321965260800 (pool `share-pool-01` of the driver's own test data, with
free space 321931374592) converts to 299.85 GiB (and the free space to
299.82 GiB). -/
theorem update_pools_stats_conversion :
    update_pools_stats ["share-pool-01".data]
        [⟨"/LV-1/share-pool-01".data, 321965260800, 321931374592⟩]
      = some [("share-pool-01".data, 29985 / 100, 29982 / 100)] ∧
    pyround2 (bi_to_gi 321965260800) = 29985 / 100 := by
  have hfree : pyround2 (bi_to_gi 321931374592) = 29982 / 100 := by
    have h : rndHalfEven ((321931374592 : ℚ) / 1073741824 * 100) = 29982 :=
      rndHalfEven_of_lt _ _ (by norm_num) (by norm_num)
    simp only [pyround2, bi_to_gi, unitsGi]
    rw [h]
    norm_num
  have hx : extract_pool_name "/LV-1/share-pool-01".data
      = some "share-pool-01".data := by decide
  refine ⟨?_, pyround2_b321965260800⟩
  simp [update_pools_stats, hx, pyround2_b321965260800, hfree]

/-! ## manage_existing -/

/-- One entry of the `folder status` reply as consumed by setup
verification. -/
structure FolderEntry where
  directory : Str
  volumeId : Str

/-- The appliance identifiers stored into `pool_dict[name]` on a match. -/
structure PoolEntry where
  volId : Str
  path : Str
  deriving DecidableEq

/-- How `_check_pools_setup` can end: registry populated (`ok`), the
`VolumeDriverException` listing the still-missing pool names
(`poolNotFound`), Python's `list.remove` failing because the name was
already removed (`valueError`), or `_extract_pool_name` indexing past the
end of a short directory path (`indexError`). -/
inductive SetupResult where
  | ok (registry : List (Str × PoolEntry))
  | poolNotFound (missing : List Str)
  | valueError
  | indexError
  deriving DecidableEq

/-- The `for pool_info in pool_data` loop of `_check_pools_setup`.
`keys` is `pool_dict.keys()` (the configured names, never mutated),
`pool_list` the working copy names are removed from, `reg` the registry
entries written so far.  `pool_list.remove` on an absent name models the
`ValueError` Python raises; the `if len(pool_list) == 0: break` check runs
at the end of each iteration. -/
def pools_setup_loop (keys : List Str) :
    List FolderEntry → List Str → List (Str × PoolEntry) → SetupResult
  | [], pool_list, reg =>
    if pool_list = [] then .ok reg else .poolNotFound pool_list
  | fi :: rest, pool_list, reg =>
    match extract_pool_name fi.directory with
    | none => .indexError
    | some pn =>
      if pn ∈ keys then
        if pn ∈ pool_list then
          let pl2 := pool_list.erase pn
          let reg2 := (pn, ⟨fi.volumeId, fi.directory⟩) :: reg
          if pl2 = [] then .ok reg2
          else pools_setup_loop keys rest pl2 reg2
        else .valueError
      else
        if pool_list = [] then .ok reg
        else pools_setup_loop keys rest pool_list reg

/-- `InfortrendNAS._check_pools_setup` on the configured pool names and one
`folder status` listing. -/
def check_pools_setup (configured : List Str)
    (pool_data : List FolderEntry) : SetupResult :=
  pools_setup_loop configured pool_data configured []

/-- The pool names extracted from a `folder status` listing. -/
def extractedNames (pool_data : List FolderEntry) : List Str :=
  pool_data.filterMap (fun fi => extract_pool_name fi.directory)

/-- Whether the registry holds an entry for `n`. -/
def hasKey (reg : List (Str × PoolEntry)) (n : Str) : Bool :=
  reg.any (fun e => e.1 = n)

/-- The configured names in `pl` absent from the extracted set `ex`. -/
def missingPools (pl ex : List Str) : List Str :=
  pl.filter (fun n => decide (n ∉ ex))

theorem missingPools_nil (pl : List Str) : missingPools pl [] = pl := by
  simp [missingPools]

theorem missingPools_cons_not_mem (pl : List Str) (x : Str) (ex : List Str)
    (h : ∀ n ∈ pl, n ≠ x) :
    missingPools pl (x :: ex) = missingPools pl ex := by
  apply List.filter_congr
  intro n hn
  simp [List.mem_cons, h n hn]

theorem missingPools_cons_erase (pl : List Str) (x : Str) (ex : List Str)
    (hnd : pl.Nodup) :
    missingPools pl (x :: ex) = missingPools (pl.erase x) ex := by
  simp only [missingPools]
  rw [hnd.erase_eq_filter x, List.filter_filter]
  apply List.filter_congr
  intro n hn
  by_cases hx : n = x
  · subst hx; simp [List.mem_cons]
  · simp [List.mem_cons, hx]

theorem hasKey_cons_of (n : Str) (e : Str × PoolEntry)
    (reg : List (Str × PoolEntry)) (h : hasKey reg n = true) :
    hasKey (e :: reg) n = true := by
  simp only [hasKey, List.any_cons, Bool.or_eq_true]
  exact Or.inr h

theorem setup_loop_reg_mono (keys : List Str) :
    ∀ data pl reg reg2, pools_setup_loop keys data pl reg = .ok reg2 →
    ∀ n, hasKey reg n = true → hasKey reg2 n = true := by
  intro data
  induction data with
  | nil =>
    intro pl reg reg2 h n hn
    by_cases hpl : pl = []
    · simp only [pools_setup_loop, if_pos hpl] at h
      cases h
      exact hn
    · simp only [pools_setup_loop, if_neg hpl] at h
      exact SetupResult.noConfusion h
  | cons fi rest ih =>
    intro pl reg reg2 h n hn
    rcases hx : extract_pool_name fi.directory with _ | pn
    · simp only [pools_setup_loop, hx] at h
      exact SetupResult.noConfusion h
    · simp only [pools_setup_loop, hx] at h
      by_cases hk : pn ∈ keys
      · rw [if_pos hk] at h
        by_cases hpl : pn ∈ pl
        · rw [if_pos hpl] at h
          by_cases hpl2 : pl.erase pn = []
          · rw [if_pos hpl2] at h
            cases h
            exact hasKey_cons_of n _ reg hn
          · rw [if_neg hpl2] at h
            exact ih _ _ _ h n (hasKey_cons_of n _ reg hn)
        · rw [if_neg hpl] at h
          exact SetupResult.noConfusion h
      · rw [if_neg hk] at h
        by_cases hpl : pl = []
        · rw [if_pos hpl] at h
          cases h
          exact hn
        · rw [if_neg hpl] at h
          exact ih _ _ _ h n hn

theorem setup_loop_registers (keys : List Str) :
    ∀ data pl reg reg2, pools_setup_loop keys data pl reg = .ok reg2 →
    ∀ n, n ∈ pl → hasKey reg2 n = true := by
  intro data
  induction data with
  | nil =>
    intro pl reg reg2 h n hn
    by_cases hpl : pl = []
    · subst hpl; simp at hn
    · simp only [pools_setup_loop, if_neg hpl] at h
      exact SetupResult.noConfusion h
  | cons fi rest ih =>
    intro pl reg reg2 h n hn
    rcases hx : extract_pool_name fi.directory with _ | pn
    · simp only [pools_setup_loop, hx] at h
      exact SetupResult.noConfusion h
    · simp only [pools_setup_loop, hx] at h
      by_cases hk : pn ∈ keys
      · rw [if_pos hk] at h
        by_cases hpl : pn ∈ pl
        · rw [if_pos hpl] at h
          by_cases hpl2 : pl.erase pn = []
          · rw [if_pos hpl2] at h
            cases h
            by_cases hne : n = pn
            · subst hne; simp [hasKey]
            · have hme : n ∈ pl.erase pn := (List.mem_erase_of_ne hne).mpr hn
              rw [hpl2] at hme
              simp at hme
          · rw [if_neg hpl2] at h
            by_cases hne : n = pn
            · subst hne
              exact setup_loop_reg_mono keys rest _ _ _ h n (by simp [hasKey])
            · have hn2 : n ∈ pl.erase pn := (List.mem_erase_of_ne hne).mpr hn
              exact ih _ _ _ h n hn2
        · rw [if_neg hpl] at h
          exact SetupResult.noConfusion h
      · rw [if_neg hk] at h
        by_cases hpl : pl = []
        · subst hpl; simp at hn
        · rw [if_neg hpl] at h
          exact ih _ _ _ h n hn

/-- The extracted pool names that are also configured — a duplicate among
these is what makes `pool_list.remove` raise; duplicates among
non-configured folder names are skipped harmlessly by the loop. -/
def configuredExtracted (keys ex : List Str) : List Str :=
  ex.filter (fun n => decide (n ∈ keys))

theorem setup_loop_missing (keys : List Str) :
    ∀ data pl reg,
    (∀ fi ∈ data, (extract_pool_name fi.directory).isSome = true) →
    (configuredExtracted keys (extractedNames data)).Nodup →
    pl.Nodup →
    (∀ n ∈ pl, n ∈ keys) →
    (∀ n, n ∈ extractedNames data → n ∈ keys → n ∈ pl) →
    missingPools pl (extractedNames data) ≠ [] →
    pools_setup_loop keys data pl reg
      = .poolNotFound (missingPools pl (extractedNames data)) := by
  intro data
  induction data with
  | nil =>
    intro pl reg _ _ _ _ _ hne
    rw [show extractedNames [] = [] from rfl, missingPools_nil] at hne ⊢
    simp [pools_setup_loop, hne]
  | cons fi rest ih =>
    intro pl reg hex hnd hplnd hplk hmem hne
    obtain ⟨pn, hx⟩ : ∃ pn, extract_pool_name fi.directory = some pn :=
      Option.isSome_iff_exists.mp (hex fi (List.mem_cons_self _ _))
    have hexrest : ∀ fi2 ∈ rest,
        (extract_pool_name fi2.directory).isSome = true :=
      fun fi2 h2 => hex fi2 (List.mem_cons_of_mem _ h2)
    have hEN : extractedNames (fi :: rest) = pn :: extractedNames rest := by
      simp [extractedNames, hx]
    rw [hEN] at hnd hmem hne ⊢
    by_cases hk : pn ∈ keys
    · have hfc : configuredExtracted keys (pn :: extractedNames rest)
          = pn :: configuredExtracted keys (extractedNames rest) := by
        simp only [configuredExtracted, List.filter_cons]
        simp [hk]
      rw [hfc] at hnd
      have hndr : (configuredExtracted keys (extractedNames rest)).Nodup :=
        (List.nodup_cons.mp hnd).2
      have hpnotr : pn ∉ configuredExtracted keys (extractedNames rest) :=
        (List.nodup_cons.mp hnd).1
      have hpnpl : pn ∈ pl := hmem pn (List.mem_cons_self _ _) hk
      have hfeq : missingPools pl (pn :: extractedNames rest)
          = missingPools (pl.erase pn) (extractedNames rest) :=
        missingPools_cons_erase pl pn _ hplnd
      rw [hfeq] at hne
      have hpl2ne : pl.erase pn ≠ [] := by
        intro e
        rw [e] at hne
        exact hne (by simp [missingPools])
      simp only [pools_setup_loop, hx, if_pos hk, if_pos hpnpl,
        if_neg hpl2ne]
      rw [hfeq]
      exact ih (pl.erase pn) ((pn, ⟨fi.volumeId, fi.directory⟩) :: reg)
        hexrest hndr (hplnd.erase pn)
        (fun n hn => hplk n (List.mem_of_mem_erase hn))
        (fun n hnex hnk => by
          have hnpl : n ∈ pl := hmem n (List.mem_cons_of_mem _ hnex) hnk
          have hmemf : n ∈ configuredExtracted keys (extractedNames rest) :=
            List.mem_filter.mpr ⟨hnex, by simp [hnk]⟩
          have hne2 : n ≠ pn := fun e => hpnotr (e ▸ hmemf)
          exact (List.mem_erase_of_ne hne2).mpr hnpl)
        hne
    · have hfc : configuredExtracted keys (pn :: extractedNames rest)
          = configuredExtracted keys (extractedNames rest) := by
        simp only [configuredExtracted, List.filter_cons]
        simp [hk]
      rw [hfc] at hnd
      have hfeq : missingPools pl (pn :: extractedNames rest)
          = missingPools pl (extractedNames rest) :=
        missingPools_cons_not_mem pl pn _
          (fun n hn e => hk (e ▸ hplk n hn))
      rw [hfeq] at hne
      have hplne : pl ≠ [] := by
        intro e
        rw [e] at hne
        exact hne (by simp [missingPools])
      simp only [pools_setup_loop, hx, if_neg hk, if_neg hplne]
      rw [hfeq]
      exact ih pl reg hexrest hnd hplnd hplk
        (fun n hnex hnk => hmem n (List.mem_cons_of_mem _ hnex) hnk)
        hne

/-- C8 (amended): provided every directory in the listing yields a pool
name and no CONFIGURED pool name is extracted twice (duplicate
non-configured folder names are fine — the loop skips them without
touching `pool_list`), setup verification behaves as claimed: on success
the registry holds an entry for every configured name, and otherwise it
fails carrying exactly the configured names absent from the
appliance-reported set.  Without that proviso the claim fails — see the
counterexample, where a second occurrence of a configured name makes
`pool_list.remove` raise `ValueError` instead. -/
theorem check_pools_setup_spec (configured : List Str)
    (pool_data : List FolderEntry) (hc : configured.Nodup)
    (hex : ∀ fi ∈ pool_data, (extract_pool_name fi.directory).isSome = true)
    (hnd : (configuredExtracted configured (extractedNames pool_data)).Nodup) :
    (∀ reg, check_pools_setup configured pool_data = .ok reg →
      ∀ n ∈ configured, hasKey reg n = true) ∧
    (missingPools configured (extractedNames pool_data) ≠ [] →
      check_pools_setup configured pool_data
        = .poolNotFound (missingPools configured (extractedNames pool_data))) := by
  constructor
  · intro reg h n hn
    exact setup_loop_registers configured pool_data configured [] reg h n hn
  · intro hne
    exact setup_loop_missing configured pool_data configured [] hex hnd hc
      (fun n hn => hn) (fun n _ hk => hk) hne

/-- C8 counterexample: two configured pools, and a listing in which the
pool name `share-pool-01` is extracted twice (two logical volumes carry a
folder of the same name).  `share-pool-02` is absent, so per the claim the
check should fail listing exactly `[share-pool-02]`; instead the second
`pool_list.remove('share-pool-01')` raises `ValueError`. -/
theorem check_pools_setup_cex :
    check_pools_setup ["share-pool-01".data, "share-pool-02".data]
        [⟨"/LV-1/share-pool-01".data, "6541BAFB2E6C57B6".data⟩,
         ⟨"/LV-2/share-pool-01".data, "147A8FB67DA39914".data⟩]
      = .valueError ∧
    SetupResult.valueError ≠ .poolNotFound ["share-pool-02".data] := by
  constructor
  · decide
  · intro h
    exact SetupResult.noConfusion h

/-- Witness for `check_pools_setup_spec`: one configured pool present, one
absent, and a NON-configured folder name (`UserHome`) extracted twice from
two logical volumes — allowed by the hypotheses; verification fails
listing exactly the absent configured name. -/
theorem check_pools_setup_spec_witness :
    check_pools_setup ["share-pool-01".data, "share-pool-02".data]
        [⟨"/LV-1/UserHome".data, "AA00".data⟩,
         ⟨"/LV-2/UserHome".data, "BB00".data⟩,
         ⟨"/LV-1/share-pool-01".data, "6541BAFB2E6C57B6".data⟩]
      = .poolNotFound ["share-pool-02".data] := by
  have h := (check_pools_setup_spec
      ["share-pool-01".data, "share-pool-02".data]
      [⟨"/LV-1/UserHome".data, "AA00".data⟩,
       ⟨"/LV-2/UserHome".data, "BB00".data⟩,
       ⟨"/LV-1/share-pool-01".data, "6541BAFB2E6C57B6".data⟩]
      (by decide) (by decide) (by decide)).2 (by decide)
  exact h.trans (by decide)
